import Mathlib

/-
Shallow embedding of the dependency-resolution subsystem of PyGUIde
(src/PyGUIde.py, class DependencyManager).

External effects are made explicit:
* the host interpreter module metadata consulted by is_standard_library
  (sys.builtin_module_names, importlib.util.find_spec) becomes an `Interp`
  record of oracles;
* subprocess invocations (pip list / pip install) become explicit outcome
  values passed in as arguments;
* the filesystem consulted by detect_venv / create_venv becomes a `HostFS`
  record of oracles, and the directory created by venv.create is recorded
  as an update of that record;
* Python exceptions become `Except` results; a function that catches every
  exception is total and returns a plain value.

Machine-level caveats: Python str.lower and the character classes of the
regular expression in is_standard_library are modelled over the ASCII
range exactly as Char.toLower / Char.isAlpha / Char.isAlphanum behave,
which agrees with Python on ASCII package names.
-/

namespace PyGUIde

/-- Python set insertion, modelling `s.add(x)` on a set represented as a
duplicate-free list: appends x unless already present. -/
def insertSet (acc : List String) (x : String) : List String :=
  if acc.contains x then acc else acc ++ [x]

/-- Python `s.lower()` (ASCII range), used via `imp.lower()` and
`pkg[ "name" ].lower()` in the source. -/
def toLowerS (s : String) : String := ⟨s.data.map Char.toLower⟩

/-- Python `name.split( "." )[0]`: the characters before the first dot. -/
def topLevelName (s : String) : String := ⟨s.data.takeWhile (fun c => c ≠ '.')⟩

/-- Whether `pat` occurs at the head of `l` (helper for substring search). -/
def startsWithChars : List Char → List Char → Bool
  | [], _ => true
  | _ :: _, [] => false
  | a :: as, b :: bs => a == b && startsWithChars as bs

/-- Whether `pat` occurs somewhere in `l` (helper for substring search). -/
def containsChars (pat : List Char) : List Char → Bool
  | [] => pat.isEmpty
  | b :: bs => startsWithChars pat (b :: bs) || containsChars pat bs

/-- Python `needle in hay` on strings: substring containment. -/
def strContains (hay needle : String) : Bool := containsChars needle.data hay.data

/-- One character of the class `[a-zA-Z_]`. -/
def identHeadChar (c : Char) : Bool := c.isAlpha || c = '_'

/-- One character of the class `[a-zA-Z0-9_]`. -/
def identTailChar (c : Char) : Bool := c.isAlphanum || c = '_'

/-- In Python regular expressions a final `$` also matches just before one
trailing newline; re.match anchors at the start. -/
def stripOneTrailingNewline (cs : List Char) : List Char :=
  if cs.getLast? = some '\n' then cs.dropLast else cs

/-- Python `re.match(r^[a-zA-Z_][a-zA-Z0-9_]*$, module_name)` viewed as a
Boolean: the whole string (up to one trailing newline) is a valid
identifier. -/
def matchesIdentifierRegex (s : String) : Bool :=
  match stripOneTrailingNewline s.data with
  | [] => false
  | c :: rest => identHeadChar c && rest.all identTailChar

/-- The module-resolution metadata of importlib.machinery.ModuleSpec that
is_standard_library consults: only the origin attribute. -/
structure ModuleSpec where
  origin : Option String
deriving DecidableEq

/-- Host-interpreter oracles consulted by is_standard_library:
sys.builtin_module_names, and importlib.util.find_spec, which either
raises (modelled as Except.error), returns None, or returns a spec. -/
structure Interp where
  builtin_module_names : List String
  find_spec : String → Except Unit (Option ModuleSpec)

/-- DependencyManager.is_standard_library (src/PyGUIde.py lines 170-203).
Order of tests follows the source: invalid identifier, builtin list,
find_spec failure, missing spec, origin None or built-in, and finally the
site-packages / dist-packages path sniff. -/
def is_standard_library (I : Interp) (module_name : String) : Bool :=
  if !matchesIdentifierRegex module_name then
    true
  else if I.builtin_module_names.contains module_name then
    true
  else
    match I.find_spec module_name with
    | .error _ => false
    | .ok none => false
    | .ok (some spec) =>
      match spec.origin with
      | none => true
      | some origin =>
        if origin = "built-in" then true
        else !strContains origin "site-packages" && !strContains origin "dist-packages"

/-- The import_to_package_map dict literal of get_missing_packages
(src/PyGUIde.py lines 210-217): special cases where the import name
differs from the installable package name. -/
def import_to_package_map : List (String × String) :=
  [("pil", "pillow"),
   ("yaml", "pyyaml"),
   ("cv2", "opencv-python"),
   ("skimage", "scikit-image"),
   ("sklearn", "scikit-learn"),
   ("bs4", "beautifulsoup4")]

/-- Python `d.get(k, dflt)` on a small literal dict represented as an
association list. -/
def dictGet (m : List (String × String)) (k dflt : String) : String :=
  match m.find? (fun p => p.1 == k) with
  | some p => p.2
  | none => dflt

/-- The alias lookup `import_to_package_map.get(imp_lower, imp_lower)`
applied to an already-lowercased name. -/
def aliasResolve (s : String) : String := dictGet import_to_package_map s s

/-- The install name that get_missing_packages adds for import `imp`:
`import_to_package_map.get(imp_lower, imp)`. -/
def installNameOf (imp : String) : String :=
  dictGet import_to_package_map (toLowerS imp) imp

/-- The key that get_missing_packages tests against the installed dict:
`import_to_package_map.get(imp_lower, imp_lower)`. -/
def packageKeyOf (imp : String) : String :=
  dictGet import_to_package_map (toLowerS imp) (toLowerS imp)

/-- Loop body of get_missing_packages (src/PyGUIde.py lines 219-230), with
the installed dict of get_installed_packages passed in as an association
list and membership `package_name not in installed` read on its keys. -/
def missing_step (I : Interp) (installed : List (String × String))
    (acc : List String) (imp : String) : List String :=
  if is_standard_library I imp then acc
  else
    let imp_lower := toLowerS imp
    let package_name := dictGet import_to_package_map imp_lower imp_lower
    if (installed.map Prod.fst).contains package_name then acc
    else
      let install_name := dictGet import_to_package_map imp_lower imp
      insertSet acc install_name

/-- DependencyManager.get_missing_packages (src/PyGUIde.py lines 205-232):
fold the loop body over the import names, then `sorted(list(missing))`.
Python sorted on strings is the lexicographic code-point order, which is
the Mathlib linear order on String. -/
def get_missing_packages (I : Interp) (installed : List (String × String))
    (imports : List String) : List String :=
  List.insertionSort (· ≤ ·) (imports.foldl (missing_step I installed) [])

/-- One import statement collected by ast.walk: either `import a.b.c, d`
(one entry per alias, carrying alias.name) or `from X import ...`
(carrying node.module, which is None for a pure relative import). -/
inductive ImportNode where
  | importStmt (names : List String)
  | importFromStmt (module : Option String)
deriving DecidableEq

/-- Loop body of analyze_imports over one parsed node. -/
def import_node_step (acc : List String) (node : ImportNode) : List String :=
  match node with
  | .importStmt names => names.foldl (fun a nm => insertSet a (topLevelName nm)) acc
  | .importFromStmt (some m) => insertSet acc (topLevelName m)
  | .importFromStmt none => acc

/-- Loop body of analyze_imports over one file: reading or parsing may
fail with any exception (Except.error), in which case the file is
skipped by `continue`. -/
def import_file_step (acc : List String) (pf : Except Unit (List ImportNode)) :
    List String :=
  match pf with
  | .error _ => acc
  | .ok nodes => nodes.foldl import_node_step acc

/-- DependencyManager.analyze_imports (src/PyGUIde.py lines 148-168): each
file is given by its parse outcome (the Import / ImportFrom nodes met by
ast.walk, or a read/parse failure); the result is the set of collected
top-level names. -/
def analyze_imports (files : List (Except Unit (List ImportNode))) : List String :=
  files.foldl import_file_step []

/-- The top-level names one node contributes, for stating theorems. -/
def nodeTopNames (node : ImportNode) : List String :=
  match node with
  | .importStmt names => names.map topLevelName
  | .importFromStmt (some m) => [topLevelName m]
  | .importFromStmt none => []

/-- The top-level names one file contributes (none when unparseable),
for stating theorems. -/
def fileTopNames (pf : Except Unit (List ImportNode)) : List String :=
  match pf with
  | .error _ => []
  | .ok nodes => nodes.flatMap nodeTopNames

/-- Python exceptions distinguished by the embedded subprocess code. -/
inductive PyErr where
  | calledProcessError
  | fileNotFoundError
  | otherError
deriving DecidableEq

/-- One entry of the JSON emitted by `pip list --format=json`. -/
structure PipPackage where
  name : String
  version : String
deriving DecidableEq

/-- DependencyManager.get_installed_packages (src/PyGUIde.py lines
133-146). `run_result` is the outcome of the `pip list` subprocess run
with check=True (error covers start failure and non-zero exit);
`parsePkgs` is the outcome of json.loads plus the name/version field
accesses (error covers malformed output). Every exception is caught and
becomes the empty dict; on success the comprehension lowercases names. -/
def get_installed_packages (run_result : Except PyErr String)
    (parsePkgs : String → Except PyErr (List PipPackage)) :
    List (String × String) :=
  match run_result with
  | .error _ => []
  | .ok stdout =>
    match parsePkgs stdout with
    | .error _ => []
    | .ok pkgs => pkgs.map (fun pkg => (toLowerS pkg.name, pkg.version))

/-- Outcome of launching the `pip install` subprocess: either the launch
itself raises (executable missing and the like), or the process runs,
producing its combined output lines and a return code. -/
inductive ProcOutcome where
  | startFailure (e : PyErr)
  | ran (output_lines : List String) (returncode : Int)

/-- The line the except-handler of install_packages sends to the callback
for a CalledProcessError. -/
def calledProcessErrorReport : String := "Error: CalledProcessError"

/-- DependencyManager.install_packages (src/PyGUIde.py lines 234-269).
Result: Except models an escaping Python exception; on normal return the
Bool is the returned success flag and the list is the sequence of lines
delivered to the output callback. With a callback the source uses Popen
and streams, so only a launch failure can raise; without a callback it
uses run with check=True, so a non-zero exit raises CalledProcessError.
The except clause catches exactly CalledProcessError, reports to the
callback when there is one, and returns False. -/
def install_packages (proc : ProcOutcome) (packages : List String)
    (has_callback : Bool) : Except PyErr (Bool × List String) :=
  if packages.isEmpty then .ok (true, [])
  else
    let body : Except PyErr (Bool × List String) :=
      if has_callback then
        match proc with
        | .startFailure e => .error e
        | .ran lines rc => .ok (rc == 0, lines)
      else
        match proc with
        | .startFailure e => .error e
        | .ran _ rc => if rc == 0 then .ok (true, []) else .error .calledProcessError
    match body with
    | .error .calledProcessError =>
      .ok (false, if has_callback then [calledProcessErrorReport] else [])
    | other => other

/-- Filesystem oracles consulted by detect_venv and create_venv:
os.path.isdir and os.path.exists. -/
structure HostFS where
  isdir : String → Bool
  path_exists : String → Bool

/-- The mutable state of a DependencyManager (src/PyGUIde.py lines
82-88): project_path (None or a string), venv_path, python_executable. -/
structure DependencyManager where
  project_path : Option String
  venv_path : Option String
  python_executable : String
deriving DecidableEq

/-- os.path.join of two components; on Windows (nt) the separator is a
backslash. -/
def joinPath (nt : Bool) (a b : String) : String :=
  a ++ (if nt then "\\" else "/") ++ b

/-- The platform-appropriate interpreter path inside a venv directory:
Scripts\python.exe on Windows, bin/python elsewhere. -/
def pythonExePath (nt : Bool) (venv_dir : String) : String :=
  if nt then joinPath nt (joinPath nt venv_dir "Scripts") "python.exe"
  else joinPath nt (joinPath nt venv_dir "bin") "python"

/-- The fixed candidate list of detect_venv (src/PyGUIde.py line 95). -/
def venv_candidates : List String := ["venv", "env", ".venv", ".env"]

/-- Whether one candidate directory qualifies: it is a directory and the
interpreter executable exists inside it. -/
def qualifiesVenv (fs : HostFS) (nt : Bool) (pp c : String) : Bool :=
  fs.isdir (joinPath nt pp c) && fs.path_exists (pythonExePath nt (joinPath nt pp c))

/-- The candidate loop of detect_venv (src/PyGUIde.py lines 96-108):
returns the first candidate directory that is a directory and holds the
interpreter executable; a directory without the executable is passed
over and the loop continues. -/
def detect_loop (fs : HostFS) (nt : Bool) (pp : String) :
    List String → Option String
  | [] => none
  | c :: rest =>
    let potential_venv := joinPath nt pp c
    if fs.isdir potential_venv then
      if fs.path_exists (pythonExePath nt potential_venv) then some potential_venv
      else detect_loop fs nt pp rest
    else detect_loop fs nt pp rest

/-- DependencyManager.detect_venv (src/PyGUIde.py lines 90-111). A falsy
project_path (None or empty) returns False without touching the state;
a hit sets venv_path and python_executable to the found venv; otherwise
both are reset to the global interpreter. -/
def detect_venv (fs : HostFS) (nt : Bool) (sys_executable : String)
    (dm : DependencyManager) : DependencyManager × Bool :=
  match dm.project_path with
  | none => (dm, false)
  | some pp =>
    if pp = "" then (dm, false)
    else
      match detect_loop fs nt pp venv_candidates with
      | some potential_venv =>
        ({dm with venv_path := some potential_venv,
                  python_executable := pythonExePath nt potential_venv}, true)
      | none =>
        ({dm with venv_path := none, python_executable := sys_executable}, false)

/-- The two exceptions create_venv raises synchronously. -/
inductive VenvError where
  | noProjectPath
  | alreadyExists (venv_name : String)
deriving DecidableEq

/-- Effect of venv.create on the filesystem: the target path now exists
(and is a directory). The rest of the created tree is irrelevant to the
embedded code paths. -/
def venvCreateFS (fs : HostFS) (path : String) : HostFS :=
  { isdir := fun p => p = path || fs.isdir p,
    path_exists := fun p => p = path || fs.path_exists p }

/-- DependencyManager.create_venv (src/PyGUIde.py lines 113-131). Raises
(Except.error) before any mutation when project_path is falsy or the
target directory already exists, so on error the caller keeps its
DependencyManager and filesystem unchanged; on success returns the
updated manager, the filesystem after venv.create, and True. -/
def create_venv (fs : HostFS) (nt : Bool) (dm : DependencyManager)
    (venv_name : String) : Except VenvError (DependencyManager × HostFS × Bool) :=
  match dm.project_path with
  | none => .error .noProjectPath
  | some pp =>
    if pp = "" then .error .noProjectPath
    else
      let venv_path := joinPath nt pp venv_name
      if fs.path_exists venv_path then .error (.alreadyExists venv_name)
      else
        let fs2 := venvCreateFS fs venv_path
        let python_executable := pythonExePath nt venv_path
        .ok ({dm with venv_path := some venv_path,
                      python_executable := python_executable}, fs2, true)

/-- An interpreter oracle on which find_spec finds nothing: no builtins,
every module unresolved. Used to instantiate theorems concretely. -/
def interpNone : Interp := ⟨[], fun _ => .ok none⟩

/-- A concrete filesystem holding exactly one valid venv at proj/venv. -/
def fsVenvOnly : HostFS :=
  ⟨fun p => p == "proj/venv", fun p => p == "proj/venv/bin/python"⟩

/-- A concrete filesystem holding two valid venvs, proj/venv and proj/env. -/
def fsVenvAndEnv : HostFS :=
  ⟨fun p => p == "proj/venv" || p == "proj/env",
   fun p => p == "proj/venv/bin/python" || p == "proj/env/bin/python"⟩

/-- A concrete empty filesystem. -/
def fsEmptyFS : HostFS := ⟨fun _ => false, fun _ => false⟩

/-- A concrete manager state with a project open and no venv detected. -/
def dmProj : DependencyManager := ⟨some "proj", none, "sysPython"⟩

end PyGUIde

namespace PyGUIde

lemma contains_true_iff {l : List String} {x : String} :
    l.contains x = true ↔ x ∈ l := by
  simp [List.contains, List.elem_iff]

lemma contains_false_iff {l : List String} {x : String} :
    l.contains x = false ↔ x ∉ l := by
  rw [← Bool.not_eq_true, not_iff_not]
  exact contains_true_iff

lemma mem_insertSet {acc : List String} {y x : String} :
    x ∈ insertSet acc y ↔ x ∈ acc ∨ x = y := by
  unfold insertSet
  by_cases h : acc.contains y = true
  · have hy : y ∈ acc := contains_true_iff.mp h
    simp only [h, if_true]
    constructor
    · exact Or.inl
    · rintro (hx | rfl)
      · exact hx
      · exact hy
  · rw [if_neg h]
    simp [List.mem_append]

lemma self_mem_insertSet {acc : List String} {y : String} : y ∈ insertSet acc y :=
  mem_insertSet.mpr (Or.inr rfl)

lemma nodup_insertSet {acc : List String} {y : String} (h : acc.Nodup) :
    (insertSet acc y).Nodup := by
  unfold insertSet
  by_cases hc : acc.contains y = true
  · rw [if_pos hc]
    exact h
  · have hy : y ∉ acc := contains_false_iff.mp (by simpa using hc)
    rw [if_neg hc]
    simp [List.nodup_append, h, hy]

lemma aliasResolve_eq (s : String) :
    aliasResolve s =
      if s = "pil" then "pillow"
      else if s = "yaml" then "pyyaml"
      else if s = "cv2" then "opencv-python"
      else if s = "skimage" then "scikit-image"
      else if s = "sklearn" then "scikit-learn"
      else if s = "bs4" then "beautifulsoup4"
      else s := by
  by_cases h1 : s = "pil"
  · subst h1; decide
  by_cases h2 : s = "yaml"
  · subst h2; decide
  by_cases h3 : s = "cv2"
  · subst h3; decide
  by_cases h4 : s = "skimage"
  · subst h4; decide
  by_cases h5 : s = "sklearn"
  · subst h5; decide
  by_cases h6 : s = "bs4"
  · subst h6; decide
  have e1 : (("pil" : String) == s) = false := beq_eq_false_iff_ne.mpr (Ne.symm h1)
  have e2 : (("yaml" : String) == s) = false := beq_eq_false_iff_ne.mpr (Ne.symm h2)
  have e3 : (("cv2" : String) == s) = false := beq_eq_false_iff_ne.mpr (Ne.symm h3)
  have e4 : (("skimage" : String) == s) = false := beq_eq_false_iff_ne.mpr (Ne.symm h4)
  have e5 : (("sklearn" : String) == s) = false := beq_eq_false_iff_ne.mpr (Ne.symm h5)
  have e6 : (("bs4" : String) == s) = false := beq_eq_false_iff_ne.mpr (Ne.symm h6)
  simp [aliasResolve, dictGet, import_to_package_map, List.find?_cons,
    e1, e2, e3, e4, e5, e6, h1, h2, h3, h4, h5, h6]

/-- C9: alias resolution is idempotent — resolving an already-canonical
package name returns it unchanged; equivalently, no value of the alias
map is itself a key of the map. -/
theorem alias_resolution_idempotent :
    (∀ s : String, aliasResolve (aliasResolve s) = aliasResolve s) ∧
    (∀ p ∈ import_to_package_map,
      import_to_package_map.find? (fun q => q.1 == p.2) = none) := by
  constructor
  · intro s
    rw [aliasResolve_eq s]
    split_ifs with h1 h2 h3 h4 h5 h6
    · decide
    · decide
    · decide
    · decide
    · decide
    · decide
    · rw [aliasResolve_eq s]
      simp [h1, h2, h3, h4, h5, h6]
  · decide

/-- Witness for C9 at concrete inputs: the mapped name cv2 and the map
entry for pil. -/
theorem alias_resolution_idempotent_witness :
    aliasResolve (aliasResolve "cv2") = aliasResolve "cv2" ∧
    (("pil", "pillow") ∈ import_to_package_map ∧
      import_to_package_map.find? (fun q => q.1 == ("pil", "pillow").2) = none) :=
  ⟨alias_resolution_idempotent.1 "cv2",
   by decide, alias_resolution_idempotent.2 ("pil", "pillow") (by decide)⟩

/-- C6: a file whose contents fail to read or parse is silently skipped by
analyze_imports and extraction continues over the remaining files: the
result over any file list with a failing entry equals the result with
that entry removed, and the function is total (no aggregate failure). -/
theorem analyze_imports_skips_parse_failure :
    ∀ (pre post : List (Except Unit (List ImportNode))),
      analyze_imports (pre ++ Except.error () :: post) =
        analyze_imports (pre ++ post) := by
  intro pre post
  unfold analyze_imports
  rw [List.foldl_append, List.foldl_append, List.foldl_cons]
  rfl

/-- C2 (amended): whenever the pip subprocess starts and runs, the result
of install_packages is a normal Boolean return — True exactly when the
return code is zero — and with a callback every output line is delivered
to it; a non-zero exit is never raised to the caller. (The launch-failure
case is the counterexample theorem.) -/
theorem install_packages_ran_returns_bool :
    ∀ (packages : List String) (has_callback : Bool)
      (output_lines : List String) (returncode : Int),
      packages ≠ [] →
      install_packages (.ran output_lines returncode) packages has_callback =
        .ok (returncode == 0, if has_callback then output_lines else []) := by
  intro packages has_callback output_lines returncode h
  have hne : packages.isEmpty = false := by
    cases packages
    · exact absurd rfl h
    · rfl
  cases has_callback
  · cases hrc : (returncode == 0) <;>
      simp [install_packages, hne, hrc]
  · simp [install_packages, hne]

/-- Witness for C2 amended: a run that exits 1 with a callback returns
False and the streamed line. -/
theorem install_packages_ran_returns_bool_witness :
    install_packages (.ran ["error line"] 1) ["numpy"] true = .ok (false, ["error line"]) := by
  have h := install_packages_ran_returns_bool ["numpy"] true ["error line"] 1 (by decide)
  simpa using h

/-- Counterexample to C2 as stated: a fault in starting the subprocess
(pip executable missing raises FileNotFoundError) is not converted to a
False return — it escapes install_packages, because the except clause
catches only CalledProcessError. -/
theorem install_packages_startFailure_raises :
    install_packages (.startFailure .fileNotFoundError) ["numpy"] true =
      .error .fileNotFoundError := rfl

/-- C5: get_installed_packages is total (never lets an exception reach the
caller); a failing pip query or malformed JSON yields the empty mapping,
and a successful query yields the name-to-version mapping with names
lowercased. -/
theorem get_installed_packages_soft_failure :
    ∀ (run_result : Except PyErr String)
      (parsePkgs : String → Except PyErr (List PipPackage)),
      ((∃ e, run_result = .error e) →
        get_installed_packages run_result parsePkgs = []) ∧
      (∀ stdout e, run_result = .ok stdout → parsePkgs stdout = .error e →
        get_installed_packages run_result parsePkgs = []) ∧
      (∀ stdout pkgs, run_result = .ok stdout → parsePkgs stdout = .ok pkgs →
        get_installed_packages run_result parsePkgs =
          pkgs.map (fun pkg => (toLowerS pkg.name, pkg.version))) := by
  intro run_result parsePkgs
  refine ⟨?_, ?_, ?_⟩
  · rintro ⟨e, rfl⟩
    rfl
  · rintro stdout e rfl hp
    simp [get_installed_packages, hp]
  · rintro stdout pkgs rfl hp
    simp [get_installed_packages, hp]

/-- Witness for C5: a pip failure yields the empty mapping, and a parsed
package list comes back with its name lowercased. -/
theorem get_installed_packages_soft_failure_witness :
    get_installed_packages (.error .calledProcessError) (fun _ => .ok []) = [] ∧
    get_installed_packages (.ok "out") (fun _ => .ok [⟨"NumPy", "1.0"⟩]) =
      [("numpy", "1.0")] := by
  constructor
  · exact (get_installed_packages_soft_failure _ _).1 ⟨_, rfl⟩
  · have h := (get_installed_packages_soft_failure (.ok "out")
      (fun _ => .ok [⟨"NumPy", "1.0"⟩])).2.2 "out" [⟨"NumPy", "1.0"⟩] rfl rfl
    exact h.trans (by decide)

end PyGUIde

namespace PyGUIde

lemma missing_step_def (I : Interp) (installed : List (String × String))
    (acc : List String) (imp : String) :
    missing_step I installed acc imp =
      if is_standard_library I imp then acc
      else if (installed.map Prod.fst).contains (packageKeyOf imp) then acc
      else insertSet acc (installNameOf imp) := rfl

lemma missing_step_sub {I : Interp} {installed : List (String × String)}
    {acc : List String} {x imp : String} (h : x ∈ acc) :
    x ∈ missing_step I installed acc imp := by
  rw [missing_step_def]
  split_ifs <;> first | exact h | exact mem_insertSet.mpr (Or.inl h)

lemma missing_step_nodup {I : Interp} {installed : List (String × String)}
    {acc : List String} {imp : String} (h : acc.Nodup) :
    (missing_step I installed acc imp).Nodup := by
  rw [missing_step_def]
  split_ifs <;> first | exact h | exact nodup_insertSet h

lemma missing_step_mem_cases {I : Interp} {installed : List (String × String)}
    {acc : List String} {x imp : String} (h : x ∈ missing_step I installed acc imp) :
    x ∈ acc ∨ (is_standard_library I imp = false ∧ x = installNameOf imp) := by
  rw [missing_step_def] at h
  split_ifs at h with hs hc
  · exact Or.inl h
  · exact Or.inl h
  · rcases mem_insertSet.mp h with h | h
    · exact Or.inl h
    · exact Or.inr ⟨by simpa using hs, h⟩

lemma missing_step_eq_of {I : Interp} {installed : List (String × String)}
    {acc : List String} {imp : String}
    (h2 : is_standard_library I imp = false)
    (h3 : (installed.map Prod.fst).contains (packageKeyOf imp) = false) :
    missing_step I installed acc imp = insertSet acc (installNameOf imp) := by
  rw [missing_step_def, h2, h3]
  rfl

lemma mem_missing_foldl_of_mem {I : Interp} {installed : List (String × String)} :
    ∀ (l : List String) (acc : List String) (x : String), x ∈ acc →
      x ∈ List.foldl (missing_step I installed) acc l := by
  intro l
  induction l with
  | nil => intro acc x h; simpa using h
  | cons a l ih => intro acc x h; exact ih _ _ (missing_step_sub h)

lemma nodup_missing_foldl {I : Interp} {installed : List (String × String)} :
    ∀ (l : List String) (acc : List String), acc.Nodup →
      (List.foldl (missing_step I installed) acc l).Nodup := by
  intro l
  induction l with
  | nil => intro acc h; simpa using h
  | cons a l ih => intro acc h; exact ih _ (missing_step_nodup h)

lemma mem_missing_foldl {I : Interp} {installed : List (String × String)} {imp : String}
    (h2 : is_standard_library I imp = false)
    (h3 : (installed.map Prod.fst).contains (packageKeyOf imp) = false) :
    ∀ (l : List String) (acc : List String), imp ∈ l →
      installNameOf imp ∈ List.foldl (missing_step I installed) acc l := by
  intro l
  induction l with
  | nil => intro acc h1; cases h1
  | cons a l ih =>
    intro acc h1
    rcases List.mem_cons.mp h1 with rfl | hmem
    · have hstep : installNameOf imp ∈ missing_step I installed acc imp := by
        rw [missing_step_eq_of h2 h3]
        exact self_mem_insertSet
      exact mem_missing_foldl_of_mem l (missing_step I installed acc imp) _ hstep
    · exact ih _ hmem

lemma missing_foldl_src {I : Interp} {installed : List (String × String)} :
    ∀ (l : List String) (acc : List String) (x : String),
      x ∈ List.foldl (missing_step I installed) acc l →
      x ∈ acc ∨ ∃ imp, imp ∈ l ∧ is_standard_library I imp = false ∧
        x = installNameOf imp := by
  intro l
  induction l with
  | nil => intro acc x h; exact Or.inl (by simpa using h)
  | cons a l ih =>
    intro acc x h
    rcases ih _ x h with hacc | ⟨imp, hmem, hstd, hx⟩
    · rcases missing_step_mem_cases hacc with h | ⟨hstd, hx⟩
      · exact Or.inl h
      · exact Or.inr ⟨a, List.mem_cons_self a l, hstd, hx⟩
    · exact Or.inr ⟨imp, List.mem_cons_of_mem a hmem, hstd, hx⟩

/-- C1: every import name not classified standard library whose lowercased
alias-resolved key is absent from the installed mapping appears in the
result of get_missing_packages as its alias-resolved install name exactly
once, and the result is sorted with no duplicates. -/
theorem get_missing_packages_complete_sorted_nodup
    (I : Interp) (installed : List (String × String)) (imports : List String)
    (imp : String) (h1 : imp ∈ imports)
    (h2 : is_standard_library I imp = false)
    (h3 : (installed.map Prod.fst).contains (packageKeyOf imp) = false) :
    (get_missing_packages I installed imports).count (installNameOf imp) = 1 ∧
    List.Sorted (· ≤ ·) (get_missing_packages I installed imports) ∧
    (get_missing_packages I installed imports).Nodup := by
  have hperm : (get_missing_packages I installed imports).Perm
      (imports.foldl (missing_step I installed) []) :=
    List.perm_insertionSort _ _
  have hnodup : (imports.foldl (missing_step I installed) []).Nodup :=
    nodup_missing_foldl _ _ List.nodup_nil
  have hmem : installNameOf imp ∈ imports.foldl (missing_step I installed) [] :=
    mem_missing_foldl h2 h3 _ _ h1
  refine ⟨?_, ?_, ?_⟩
  · rw [hperm.count_eq]
    exact List.count_eq_one_of_mem hnodup hmem
  · exact List.sorted_insertionSort _ _
  · exact hperm.nodup_iff.mpr hnodup

/-- Witness for C1: numpy, not installed and not standard library, comes
back exactly once in a sorted duplicate-free result. -/
theorem get_missing_packages_complete_sorted_nodup_witness :
    (get_missing_packages interpNone [] ["numpy"]).count (installNameOf "numpy") = 1 ∧
    List.Sorted (· ≤ ·) (get_missing_packages interpNone [] ["numpy"]) ∧
    (get_missing_packages interpNone [] ["numpy"]).Nodup :=
  get_missing_packages_complete_sorted_nodup interpNone [] ["numpy"] "numpy"
    (by decide) (by decide) (by decide)

/-- C3 (amended): every element of get_missing_packages is the
alias-resolved install name of some import that is not classified
standard library — imports classified standard library are skipped
before alias resolution. (The claim that the returned install names are
themselves never standard-library-classified fails: see the
counterexample, where the alias value opencv-python is classified
standard library by the defensive invalid-identifier rule.) -/
theorem get_missing_packages_skips_stdlib :
    ∀ (I : Interp) (installed : List (String × String)) (imports : List String)
      (x : String),
      x ∈ get_missing_packages I installed imports →
      ∃ imp, imp ∈ imports ∧ is_standard_library I imp = false ∧
        x = installNameOf imp := by
  intro I installed imports x hx
  have hx2 : x ∈ imports.foldl (missing_step I installed) [] :=
    (List.perm_insertionSort _ _).mem_iff.mp hx
  rcases missing_foldl_src _ _ _ hx2 with h | h
  · cases h
  · exact h

/-- Witness for C3 amended: numpy in the result arises from the
non-standard-library import numpy. -/
theorem get_missing_packages_skips_stdlib_witness :
    "numpy" ∈ get_missing_packages interpNone [] ["numpy"] ∧
    (∃ imp, imp ∈ ["numpy"] ∧ is_standard_library interpNone imp = false ∧
      "numpy" = installNameOf imp) :=
  ⟨by decide,
   get_missing_packages_skips_stdlib interpNone [] ["numpy"] "numpy" (by decide)⟩

/-- Counterexample to C3 as stated: with cv2 imported and nothing
installed, the result contains opencv-python, and is_standard_library
classifies opencv-python as standard library (it is not a valid
identifier, so the defensive first rule fires irrespective of the
interpreter oracles). -/
theorem get_missing_packages_result_stdlib_classified :
    "opencv-python" ∈ get_missing_packages interpNone [] ["cv2"] ∧
    is_standard_library interpNone "opencv-python" = true := by
  decide

end PyGUIde

namespace PyGUIde

lemma foldl_insertSet_mem :
    ∀ (l acc : List String) (x : String),
      x ∈ l.foldl insertSet acc ↔ x ∈ acc ∨ x ∈ l := by
  intro l
  induction l with
  | nil => intro acc x; simp
  | cons a l ih =>
    intro acc x
    rw [List.foldl_cons, ih, mem_insertSet, List.mem_cons, or_assoc]

lemma import_node_step_eq (acc : List String) (node : ImportNode) :
    import_node_step acc node = (nodeTopNames node).foldl insertSet acc := by
  cases node with
  | importStmt names => simp [import_node_step, nodeTopNames, List.foldl_map]
  | importFromStmt m => cases m <;> rfl

lemma nodes_foldl_eq :
    ∀ (nodes : List ImportNode) (acc : List String),
      nodes.foldl import_node_step acc =
        (nodes.flatMap nodeTopNames).foldl insertSet acc := by
  intro nodes
  induction nodes with
  | nil => intro acc; rfl
  | cons n ns ih =>
    intro acc
    rw [List.foldl_cons, ih, import_node_step_eq, List.flatMap_cons, List.foldl_append]

lemma import_file_step_eq (acc : List String) (pf : Except Unit (List ImportNode)) :
    import_file_step acc pf = (fileTopNames pf).foldl insertSet acc := by
  cases pf with
  | error e => rfl
  | ok nodes => exact nodes_foldl_eq nodes acc

lemma files_foldl_eq :
    ∀ (files : List (Except Unit (List ImportNode))) (acc : List String),
      files.foldl import_file_step acc =
        (files.flatMap fileTopNames).foldl insertSet acc := by
  intro files
  induction files with
  | nil => intro acc; rfl
  | cons pf fs ih =>
    intro acc
    rw [List.foldl_cons, ih, import_file_step_eq, List.flatMap_cons, List.foldl_append]

lemma mem_analyze_imports {files : List (Except Unit (List ImportNode))} {x : String} :
    x ∈ analyze_imports files ↔ ∃ pf, pf ∈ files ∧ x ∈ fileTopNames pf := by
  unfold analyze_imports
  rw [files_foldl_eq, foldl_insertSet_mem]
  simp [List.mem_flatMap]

lemma mem_nodeTopNames {node : ImportNode} {x : String} :
    x ∈ nodeTopNames node ↔
      ((∃ names nm, node = .importStmt names ∧ nm ∈ names ∧ x = topLevelName nm) ∨
       (∃ m, node = .importFromStmt (some m) ∧ x = topLevelName m)) := by
  cases node with
  | importStmt names =>
    simp only [nodeTopNames, List.mem_map]
    constructor
    · rintro ⟨nm, hnm, rfl⟩
      exact Or.inl ⟨names, nm, rfl, hnm, rfl⟩
    · rintro (⟨names2, nm, hinj, hnm, rfl⟩ | ⟨m, hinj, rfl⟩)
      · cases hinj
        exact ⟨nm, hnm, rfl⟩
      · cases hinj
  | importFromStmt m =>
    cases m with
    | none => simp [nodeTopNames]
    | some mm =>
      simp only [nodeTopNames, List.mem_singleton]
      constructor
      · rintro rfl
        exact Or.inr ⟨mm, rfl, rfl⟩
      · rintro (⟨names2, nm, hinj, hnm, rfl⟩ | ⟨m2, hinj, rfl⟩)
        · cases hinj
        · cases hinj
          rfl

/-- C4: analyze_imports yields exactly the top-level module names of
the import statements of the parseable files — an import statement
contributes the first dot-separated component of each imported name, a
from-import contributes the first component of its module, and a
from-import with no module contributes nothing; in particular a.b.c
contributes a and x.y contributes x. -/
theorem analyze_imports_top_level_only :
    (∀ (files : List (Except Unit (List ImportNode))) (x : String),
      x ∈ analyze_imports files ↔
        ∃ nodes, Except.ok nodes ∈ files ∧
          ((∃ names nm, ImportNode.importStmt names ∈ nodes ∧ nm ∈ names ∧
              x = topLevelName nm) ∨
           (∃ m, ImportNode.importFromStmt (some m) ∈ nodes ∧
              x = topLevelName m))) ∧
    topLevelName "a.b.c" = "a" ∧ topLevelName "x.y" = "x" := by
  refine ⟨?_, by decide, by decide⟩
  intro files x
  rw [mem_analyze_imports]
  constructor
  · rintro ⟨pf, hpf, hx⟩
    cases pf with
    | error e => simp [fileTopNames] at hx
    | ok nodes =>
      have hx2 : x ∈ nodes.flatMap nodeTopNames := hx
      rw [List.mem_flatMap] at hx2
      obtain ⟨node, hn, hxn⟩ := hx2
      rcases mem_nodeTopNames.mp hxn with ⟨names, nm, rfl, hnm, hx3⟩ | ⟨m, rfl, hx3⟩
      · exact ⟨nodes, hpf, Or.inl ⟨names, nm, hn, hnm, hx3⟩⟩
      · exact ⟨nodes, hpf, Or.inr ⟨m, hn, hx3⟩⟩
  · rintro ⟨nodes, hmem, h⟩
    refine ⟨.ok nodes, hmem, ?_⟩
    have hgoal : x ∈ nodes.flatMap nodeTopNames → x ∈ fileTopNames (.ok nodes) :=
      fun hh => hh
    apply hgoal
    rw [List.mem_flatMap]
    rcases h with ⟨names, nm, hin, hnm, hx⟩ | ⟨m, hin, hx⟩
    · exact ⟨.importStmt names, hin,
        mem_nodeTopNames.mpr (Or.inl ⟨names, nm, rfl, hnm, hx⟩)⟩
    · exact ⟨.importFromStmt (some m), hin,
        mem_nodeTopNames.mpr (Or.inr ⟨m, rfl, hx⟩)⟩

end PyGUIde

namespace PyGUIde

lemma detect_loop_cons (fs : HostFS) (nt : Bool) (pp c : String) (rest : List String) :
    detect_loop fs nt pp (c :: rest) =
      if qualifiesVenv fs nt pp c then some (joinPath nt pp c)
      else detect_loop fs nt pp rest := by
  cases h1 : fs.isdir (joinPath nt pp c) <;>
    cases h2 : fs.path_exists (pythonExePath nt (joinPath nt pp c)) <;>
      simp [detect_loop, qualifiesVenv, h1, h2]

lemma detect_loop_eq_none (fs : HostFS) (nt : Bool) (pp : String) :
    ∀ (cands : List String),
      (∀ c ∈ cands, qualifiesVenv fs nt pp c = false) →
      detect_loop fs nt pp cands = none := by
  intro cands
  induction cands with
  | nil => intro _; rfl
  | cons c rest ih =>
    intro h
    rw [detect_loop_cons, if_neg (by simp [h c (List.mem_cons_self c rest)])]
    exact ih (fun d hd => h d (List.mem_cons_of_mem c hd))

lemma detect_loop_finds (fs : HostFS) (nt : Bool) (pp : String) :
    ∀ (cands : List String),
      (∃ c ∈ cands, qualifiesVenv fs nt pp c = true) →
      ∃ c ∈ cands, qualifiesVenv fs nt pp c = true ∧
        detect_loop fs nt pp cands = some (joinPath nt pp c) := by
  intro cands
  induction cands with
  | nil => rintro ⟨c, hc, _⟩; cases hc
  | cons c rest ih =>
    intro h
    by_cases hq : qualifiesVenv fs nt pp c = true
    · refine ⟨c, List.mem_cons_self c rest, hq, ?_⟩
      rw [detect_loop_cons, if_pos hq]
    · obtain ⟨d, hd, hdq⟩ := h
      rcases List.mem_cons.mp hd with rfl | hd2
      · exact absurd hdq hq
      · obtain ⟨e, he, heq, hloop⟩ := ih ⟨d, hd2, hdq⟩
        refine ⟨e, List.mem_cons_of_mem c he, heq, ?_⟩
        rw [detect_loop_cons, if_neg hq, hloop]

/-- C7: with a project open, if some candidate subdirectory is a directory
holding the platform-appropriate interpreter executable, detect_venv
activates such a candidate — venv_path becomes that directory and
python_executable the interpreter inside it — and returns True; if no
candidate qualifies, the environment is reset to the global interpreter
(venv_path None, python_executable the host interpreter) and detect_venv
returns False. -/
theorem detect_venv_activates_first_valid :
    ∀ (fs : HostFS) (nt : Bool) (sys_executable : String)
      (dm : DependencyManager) (pp : String),
      dm.project_path = some pp → pp ≠ "" →
      ((∃ c ∈ venv_candidates, qualifiesVenv fs nt pp c = true) →
        ∃ c ∈ venv_candidates, qualifiesVenv fs nt pp c = true ∧
          detect_venv fs nt sys_executable dm =
            ({dm with venv_path := some (joinPath nt pp c),
                      python_executable := pythonExePath nt (joinPath nt pp c)},
              true)) ∧
      ((∀ c ∈ venv_candidates, qualifiesVenv fs nt pp c = false) →
        detect_venv fs nt sys_executable dm =
          ({dm with venv_path := none, python_executable := sys_executable},
            false)) := by
  intro fs nt sys_executable dm pp hpp hne
  constructor
  · intro hex
    obtain ⟨c, hc, hq, hloop⟩ := detect_loop_finds fs nt pp venv_candidates hex
    refine ⟨c, hc, hq, ?_⟩
    unfold detect_venv
    rw [hpp]
    simp only [hne, if_false, hloop]
  · intro hall
    have hloop := detect_loop_eq_none fs nt pp venv_candidates hall
    unfold detect_venv
    rw [hpp]
    simp only [hne, if_false, hloop]

/-- Witness for C7: a project with exactly ./venv/bin/python present gets
that venv activated. -/
theorem detect_venv_activates_first_valid_witness :
    dmProj.project_path = some "proj" ∧
    qualifiesVenv fsVenvOnly false "proj" "venv" = true ∧
    (∃ c ∈ venv_candidates, qualifiesVenv fsVenvOnly false "proj" c = true ∧
      detect_venv fsVenvOnly false "sysPython" dmProj =
        ({dmProj with venv_path := some (joinPath false "proj" c),
                      python_executable := pythonExePath false (joinPath false "proj" c)},
          true)) :=
  ⟨rfl, by decide,
   (detect_venv_activates_first_valid fsVenvOnly false "sysPython" dmProj "proj"
      rfl (by decide)).1 ⟨"venv", by decide, by decide⟩⟩

/-- C10: the candidate list is probed in the fixed order venv, env, .venv,
.env; when the first candidate venv qualifies it is the one activated —
in particular when both venv and env hold valid interpreters, venv wins. -/
theorem detect_venv_probe_order :
    ∀ (fs : HostFS) (nt : Bool) (sys_executable : String)
      (dm : DependencyManager) (pp : String),
      dm.project_path = some pp → pp ≠ "" →
      qualifiesVenv fs nt pp "venv" = true →
      qualifiesVenv fs nt pp "env" = true →
      venv_candidates = ["venv", "env", ".venv", ".env"] ∧
      detect_venv fs nt sys_executable dm =
        ({dm with venv_path := some (joinPath nt pp "venv"),
                  python_executable := pythonExePath nt (joinPath nt pp "venv")},
          true) := by
  intro fs nt sys_executable dm pp hpp hne hv _he
  refine ⟨rfl, ?_⟩
  unfold detect_venv
  rw [hpp]
  have hloop : detect_loop fs nt pp venv_candidates = some (joinPath nt pp "venv") := by
    show detect_loop fs nt pp ("venv" :: ["env", ".venv", ".env"]) = _
    rw [detect_loop_cons, if_pos hv]
  simp only [hne, if_false, hloop]

/-- Witness for C10: both proj/venv and proj/env are valid venvs and venv
is the one selected. -/
theorem detect_venv_probe_order_witness :
    qualifiesVenv fsVenvAndEnv false "proj" "venv" = true ∧
    qualifiesVenv fsVenvAndEnv false "proj" "env" = true ∧
    (venv_candidates = ["venv", "env", ".venv", ".env"] ∧
      detect_venv fsVenvAndEnv false "sysPython" dmProj =
        ({dmProj with venv_path := some (joinPath false "proj" "venv"),
                      python_executable :=
                        pythonExePath false (joinPath false "proj" "venv")},
          true)) :=
  ⟨by decide, by decide,
   detect_venv_probe_order fsVenvAndEnv false "sysPython" dmProj "proj"
     rfl (by decide) (by decide) (by decide)⟩

/-- C8: create_venv raises synchronously when no project path is set or
when the target directory already exists under the project root; after a
successful creation, a second call with the same name fails with the
already-exists error. In this functional embedding a raise is an
Except.error result carrying no new state, so the caller keeps its
DependencyManager and filesystem exactly as they were — the first
environment is left unchanged by the failing second call. -/
theorem create_venv_precondition_failures :
    ∀ (fs : HostFS) (nt : Bool) (dm : DependencyManager) (venv_name : String),
      (dm.project_path = none →
        create_venv fs nt dm venv_name = .error .noProjectPath) ∧
      (∀ pp, dm.project_path = some pp → pp ≠ "" →
        fs.path_exists (joinPath nt pp venv_name) = true →
        create_venv fs nt dm venv_name = .error (.alreadyExists venv_name)) ∧
      (∀ pp, dm.project_path = some pp → pp ≠ "" →
        fs.path_exists (joinPath nt pp venv_name) = false →
        ∃ dm2 fs2, create_venv fs nt dm venv_name = .ok (dm2, fs2, true) ∧
          dm2.project_path = dm.project_path ∧
          create_venv fs2 nt dm2 venv_name = .error (.alreadyExists venv_name)) := by
  intro fs nt dm venv_name
  obtain ⟨dpp, dvp, dpe⟩ := dm
  refine ⟨?_, ?_, ?_⟩
  · intro hnone
    have h : dpp = none := hnone
    subst h
    rfl
  · intro pp hpp hne hex
    have h : dpp = some pp := hpp
    subst h
    unfold create_venv
    simp [hne, hex]
  · intro pp hpp hne hex
    have h : dpp = some pp := hpp
    subst h
    refine ⟨⟨some pp, some (joinPath nt pp venv_name),
             pythonExePath nt (joinPath nt pp venv_name)⟩,
            venvCreateFS fs (joinPath nt pp venv_name), ?_, rfl, ?_⟩
    · unfold create_venv
      simp [hne, hex]
    · unfold create_venv
      have hex2 : (venvCreateFS fs (joinPath nt pp venv_name)).path_exists
          (joinPath nt pp venv_name) = true := by
        simp [venvCreateFS]
      simp [hne, hex2]

/-- Witness for C8: on an empty filesystem with a project open, creating
venv succeeds and the immediately repeated creation fails with the
already-exists error; with no project set the call fails up front. -/
theorem create_venv_precondition_failures_witness :
    create_venv fsEmptyFS false ⟨none, none, "sysPython"⟩ "venv" =
      .error .noProjectPath ∧
    (∃ dm2 fs2, create_venv fsEmptyFS false dmProj "venv" = .ok (dm2, fs2, true) ∧
      dm2.project_path = dmProj.project_path ∧
      create_venv fs2 false dm2 "venv" = .error (.alreadyExists "venv")) :=
  ⟨(create_venv_precondition_failures fsEmptyFS false ⟨none, none, "sysPython"⟩
      "venv").1 rfl,
   (create_venv_precondition_failures fsEmptyFS false dmProj "venv").2.2
     "proj" rfl (by decide) (by decide)⟩

end PyGUIde
